import Mathlib

/-!
Shallow embedding of the secret-contract fungible-token ledger.

The embedding follows src/contract.rs and src/state.rs: contract state is
the contents of the three storage namespaces (config, balances, allowances)
with balances and allowances as key-value lists, u128 arithmetic is Nat
arithmetic guarded by an explicit 128-bit bound, and every handle operation
returns the state it leaves behind together with its result, so that writes
persisted before a rejection remain visible in the returned state, exactly
as they do in the backing store.
-/

namespace SecretContract

/-- Largest value representable by a 128-bit unsigned integer (u128 MAX). -/
def U128_MAX : Nat := 2 ^ 128 - 1

/-- Rust u128 checked_add: some (x + y) unless the sum leaves 128 bits. -/
def checked_add (x y : Nat) : Option Nat :=
  if x + y ≤ U128_MAX then some (x + y) else none

/-- Rust u128 checked_sub: some (x - y) unless y exceeds x. -/
def checked_sub (x y : Nat) : Option Nat :=
  if y ≤ x then some (x - y) else none

/-- Rust u128 saturating_add: the sum, clamped to the 128-bit maximum. -/
def saturating_add (x y : Nat) : Nat :=
  min (x + y) U128_MAX

/-- A canonical address is an opaque byte string and equality is
byte-for-byte equality (spec section 3); bytes are modelled as Nat. -/
abbrev Addr := List Nat

/-- The Constants record of state.rs; the name and symbol strings are kept
as their UTF-8 byte sequences. -/
structure Constants where
  name : List Nat
  symbol : List Nat
  decimals : Nat
  owner : Addr
deriving DecidableEq, Repr

/-- The cosmwasm StdError values produced by this contract: generic_err
with a message, and serialize_err carrying the expected type name. -/
inductive StdErr where
  | genericErr (msg : String)
  | serializeErr (kind : String)
deriving DecidableEq, Repr

/-- Lookup in a key-value list: the value at the first matching key. -/
def kvGet {κ : Type} [DecidableEq κ] : List (κ × Nat) → κ → Option Nat
  | [], _ => none
  | p :: rest, k => if p.1 = k then some p.2 else kvGet rest k

/-- Store in a key-value list: overwrite the first matching key, or append
the pair when the key is absent (the semantics of a raw kv-store set,
restricted to one namespace). -/
def kvSet {κ : Type} [DecidableEq κ] : List (κ × Nat) → κ → Nat → List (κ × Nat)
  | [], k, v => [(k, v)]
  | p :: rest, k, v => if p.1 = k then (k, v) :: rest else p :: kvSet rest k v

/-! ### Byte codec (state.rs): big-endian u128 storage values, bincode
little-endian serialization of the Allowance and Constants records. -/

/-- Big-endian byte string of a value, w bytes wide (u128 to_be_bytes for
w = 16). -/
def toBeBytes : Nat → Nat → List Nat
  | 0, _ => []
  | w + 1, v => toBeBytes w (v / 256) ++ [v % 256]

/-- Value of a big-endian byte string (u128 from_be_bytes). -/
def fromBeBytes (l : List Nat) : Nat :=
  l.foldl (fun acc b => acc * 256 + b) 0

/-- The encoding used by set_total_supply and set_balance: to_be_bytes. -/
def u128_to_be_bytes (v : Nat) : List Nat := toBeBytes 16 v

/-- slice_to_u128 of state.rs: a stored byte string decodes iff it is
exactly 16 bytes; otherwise a generic corrupted-data error value. -/
def slice_to_u128 (bytes : List Nat) : Except StdErr Nat :=
  if bytes.length = 16 then .ok (fromBeBytes bytes)
  else .error (.genericErr "corrupted data, can not convert to u128")

/-- ReadonlyBalancesImpl::balance of state.rs including its unwrap of the
slice_to_u128 result, reading the raw stored bytes for an address: a
missing entry reads as 0, and an entry whose bytes do not decode makes the
unwrap panic, modelled as the none outcome (no value is returned and the
process aborts). -/
def balance_bytes_read (stored : Option (List Nat)) : Option Nat :=
  match stored with
  | some bs => (slice_to_u128 bs).toOption
  | none => some 0

/-- Little-endian byte string of a value, w bytes wide (the integer layout
bincode 1.x uses). -/
def toLeBytes : Nat → Nat → List Nat
  | 0, _ => []
  | w + 1, v => v % 256 :: toLeBytes (w) (v / 256)

/-- Value of a little-endian byte string. -/
def fromLeBytes : List Nat → Nat
  | [] => 0
  | b :: rest => b + 256 * fromLeBytes rest

/-- The Allowance record of state.rs. -/
structure Allowance where
  amount : Nat
deriving DecidableEq, Repr

/-- serialize of state.rs at type Allowance: bincode writes the u128
amount as 16 little-endian bytes. -/
def serializeAllowance (a : Allowance) : List Nat :=
  toLeBytes 16 a.amount

/-- deserialize of state.rs at type Allowance: bincode reads 16 bytes
little-endian; on malformed input the error value carries the expected
type name. -/
def deserializeAllowance (bytes : List Nat) : Except StdErr Allowance :=
  if 16 ≤ bytes.length then .ok { amount := fromLeBytes (bytes.take 16) }
  else .error (.serializeErr "secret_contract::state::Allowance")

/-- Take n bytes off the front of a byte string, failing when fewer
remain. -/
def readBytes (n : Nat) (bytes : List Nat) : Option (List Nat × List Nat) :=
  if n ≤ bytes.length then some (bytes.take n, bytes.drop n) else none

/-- The expected-type name that deserialize at type StdResult Allowance
puts into its serialize_err. -/
def resultAllowanceTypeName : String :=
  "core::result::Result<secret_contract::state::Allowance, cosmwasm_std::errors::StdError>"

/-- deserialize of state.rs at the type StdResult Allowance, the target
type the match in get_allowance forces (its None arm has that type, so
the Some arm deserialize(&bytes)? must produce a StdResult Allowance):
bincode reads a 4-byte little-endian u32 variant tag, tag 0 (Ok) is
followed by the 16-byte amount, and any other tag fails because StdError
has no bincode decoding. The error value carries the expected type
name. -/
def deserializeResultAllowance (bytes : List Nat) :
    Except StdErr (Except StdErr Allowance) :=
  match readBytes 4 bytes with
  | none => .error (.serializeErr resultAllowanceTypeName)
  | some (tagBytes, rest) =>
    if fromLeBytes tagBytes = 0 then
      match deserializeAllowance rest with
      | .ok a => .ok (.ok a)
      | .error _ => .error (.serializeErr resultAllowanceTypeName)
    else .error (.serializeErr resultAllowanceTypeName)

/-- serialize of state.rs at type Constants: bincode writes each string
and the owner address as a u64 little-endian byte count followed by the
raw bytes, and the u8 decimals as a single byte. -/
def serializeConstants (c : Constants) : List Nat :=
  toLeBytes 8 c.name.length ++ c.name ++
  toLeBytes 8 c.symbol.length ++ c.symbol ++
  [c.decimals] ++
  toLeBytes 8 c.owner.length ++ c.owner

/-- deserialize of state.rs at type Constants; on malformed input the
error value carries the expected type name. -/
def deserializeConstants (bytes : List Nat) : Except StdErr Constants :=
  match readBytes 8 bytes with
  | none => .error (.serializeErr "secret_contract::state::Constants")
  | some (l1, r1) =>
    match readBytes (fromLeBytes l1) r1 with
    | none => .error (.serializeErr "secret_contract::state::Constants")
    | some (nameBytes, r2) =>
      match readBytes 8 r2 with
      | none => .error (.serializeErr "secret_contract::state::Constants")
      | some (l2, r3) =>
        match readBytes (fromLeBytes l2) r3 with
        | none => .error (.serializeErr "secret_contract::state::Constants")
        | some (symbolBytes, r4) =>
          match r4 with
          | [] => .error (.serializeErr "secret_contract::state::Constants")
          | d :: r5 =>
            match readBytes 8 r5 with
            | none => .error (.serializeErr "secret_contract::state::Constants")
            | some (l3, r6) =>
              match readBytes (fromLeBytes l3) r6 with
              | none => .error (.serializeErr "secret_contract::state::Constants")
              | some (ownerBytes, _) =>
                .ok { name := nameBytes, symbol := symbolBytes,
                      decimals := d, owner := ownerBytes }

/-- Contract state: one field per storage namespace of state.rs. The config
namespace holds the optional Constants record and optional TotalSupply; the
balances namespace maps address bytes to stored u128 balances; the
allowances namespace maps (owner, spender) to the stored Allowance amount. -/
structure ContractState where
  constants : Option Constants
  totalSupply : Option Nat
  balances : List (Addr × Nat)
  allowances : List ((Addr × Addr) × Nat)
deriving DecidableEq, Repr

/-- State with nothing in storage. -/
def emptyState : ContractState :=
  { constants := none, totalSupply := none, balances := [], allowances := [] }

/-- Balances::balance of state.rs on well-formed storage: the stored value,
or 0 when no entry exists for the address. -/
def balance (s : ContractState) (a : Addr) : Nat :=
  (kvGet s.balances a).getD 0

/-- Balances::set_balance of state.rs. -/
def set_balance (s : ContractState) (a : Addr) (v : Nat) : ContractState :=
  { s with balances := kvSet s.balances a v }

/-- get_allowance of state.rs. A missing entry reads as amount 0. A
stored entry holds the bytes set_allowance wrote, serialize at type
Allowance, but the match arm deserialize(&bytes)? of state.rs line 192
deserializes them at the forced type StdResult Allowance: the question
mark propagates the outer decode failure, and the arm otherwise yields
the inner result, which the function returns. -/
def get_allowance (s : ContractState) (owner spender : Addr) :
    Except StdErr Allowance :=
  match kvGet s.allowances (owner, spender) with
  | none => .ok { amount := 0 }
  | some amount =>
    match deserializeResultAllowance (serializeAllowance { amount := amount }) with
    | .error e => .error e
    | .ok inner => inner

/-- set_allowance of state.rs. -/
def set_allowance (s : ContractState) (owner spender : Addr) (amount : Nat) :
    ContractState :=
  { s with allowances := kvSet s.allowances (owner, spender) amount }

/-- The HandleResult payload of msg.rs (each status is Success). -/
inductive HandleResult where
  | depositTo
  | burnFrom
  | transfer
  | transferFrom
  | approve
  | allowance (owner spender : Addr) (value : Nat)
deriving DecidableEq, Repr

/-- init of contract.rs: store the Constants record with the caller as
owner, and store TotalSupply = 0. -/
def init (s : ContractState) (sender : Addr) (name symbol : List Nat)
    (decimals : Nat) : ContractState :=
  { s with
      constants := some { name := name, symbol := symbol,
                          decimals := decimals, owner := sender },
      totalSupply := some 0 }

/-- deposit_to of contract.rs. The returned state reflects every write the
function performed before returning: in particular the total-supply write
happens before the recipient-balance overflow check, so the error state of
that branch keeps the new total supply. -/
def deposit_to (s : ContractState) (sender toAddr : Addr) (value : Nat) :
    ContractState × Except StdErr HandleResult :=
  if value = 0 then (s, .error (.genericErr "Can not deposit zero tokens"))
  else
    match s.constants with
    | none => (s, .error (.genericErr "no constants in storage"))
    | some c =>
      if sender ≠ c.owner then
        (s, .error (.genericErr "Only contract owner can deposit tokens"))
      else
        match s.totalSupply with
        | none => (s, .error (.genericErr "no constants in storage"))
        | some total_supply =>
          match checked_add total_supply value with
          | none => (s, .error (.genericErr "Total supply overflow"))
          | some new_total =>
            match checked_add (balance { s with totalSupply := some new_total } toAddr)
                value with
            | none =>
              ({ s with totalSupply := some new_total },
               .error (.genericErr "Account balance overflow"))
            | some new_balance =>
              (set_balance { s with totalSupply := some new_total } toAddr new_balance,
               .ok .depositTo)

/-- burn_from of contract.rs. The balance write happens before the
total-supply underflow check, so the error state of that branch keeps the
decremented balance. -/
def burn_from (s : ContractState) (sender fromAddr : Addr) (value : Nat) :
    ContractState × Except StdErr HandleResult :=
  if value = 0 then (s, .error (.genericErr "Can not burn zero tokens"))
  else
    match s.constants with
    | none => (s, .error (.genericErr "no constants in storage"))
    | some c =>
      if sender ≠ c.owner ∧ sender ≠ fromAddr then
        (s, .error (.genericErr "Only contract owner or account owner can burn tokens"))
      else
        match checked_sub (balance s fromAddr) value with
        | none => (s, .error (.genericErr "Account balance underflow"))
        | some new_balance =>
          match (set_balance s fromAddr new_balance).totalSupply with
          | none =>
            (set_balance s fromAddr new_balance,
             .error (.genericErr "no constants in storage"))
          | some total_supply =>
            match checked_sub total_supply value with
            | none =>
              (set_balance s fromAddr new_balance,
               .error (.genericErr "Total supply underflow"))
            | some new_total =>
              ({ set_balance s fromAddr new_balance with totalSupply := some new_total },
               .ok .burnFrom)

/-- transfer of contract.rs: both balance writes happen only after both
arithmetic checks pass. -/
def transfer (s : ContractState) (sender toAddr : Addr) (value : Nat) :
    ContractState × Except StdErr HandleResult :=
  if value = 0 then (s, .error (.genericErr "Can not transfer zero tokens"))
  else if sender = toAddr then (s, .error (.genericErr "Can not sent tokens to self"))
  else
    match checked_sub (balance s sender) value with
    | none => (s, .error (.genericErr "Sender balance underflow"))
    | some new_sender_balance =>
      match checked_add (balance s toAddr) value with
      | none => (s, .error (.genericErr "Recipient balance overflow"))
      | some new_recipient_balance =>
        (set_balance (set_balance s sender new_sender_balance) toAddr new_recipient_balance,
         .ok .transfer)

/-- transfer_from of contract.rs: the allowance, source-balance and
recipient-balance checks all precede the three writes. -/
def transfer_from (s : ContractState) (sender fromAddr toAddr : Addr) (value : Nat) :
    ContractState × Except StdErr HandleResult :=
  if value = 0 then (s, .error (.genericErr "Can not transfer zero tokens"))
  else if sender = fromAddr then
    (s, .error (.genericErr "To transfer tokens from your own account use transfer function"))
  else if fromAddr = toAddr then
    (s, .error (.genericErr "Can not transfer tokens: from and to addresses are same"))
  else
    match get_allowance s fromAddr sender with
    | .error e => (s, .error e)
    | .ok allowance =>
      match checked_sub allowance.amount value with
      | none => (s, .error (.genericErr "Not enough allowance"))
      | some new_allowance =>
        match checked_sub (balance s fromAddr) value with
        | none => (s, .error (.genericErr "Account balance underflow"))
        | some new_account_balance =>
          match checked_add (balance s toAddr) value with
          | none => (s, .error (.genericErr "Recipient balance overflow"))
          | some new_recipient_balance =>
            (set_allowance
               (set_balance (set_balance s fromAddr new_account_balance) toAddr
                 new_recipient_balance)
               fromAddr sender new_allowance,
             .ok .transferFrom)

/-- approve of contract.rs: reads the stored allowance (propagating the
get_allowance failure with the question mark of line 263) and stores the
saturating sum. -/
def approve (s : ContractState) (sender spender : Addr) (value : Nat) :
    ContractState × Except StdErr HandleResult :=
  if value = 0 then (s, .error (.genericErr "Can not approve zero tokens"))
  else if sender = spender then (s, .error (.genericErr "Can not approve to self"))
  else
    match get_allowance s sender spender with
    | .error e => (s, .error e)
    | .ok allowance =>
      (set_allowance s sender spender (saturating_add allowance.amount value),
       .ok .approve)

/-- allowance of contract.rs (the HandleMsg::Allowance read): reports the
stored allowance without mutating state, propagating the get_allowance
failure with the question mark of line 286. -/
def allowance (s : ContractState) (owner spender : Addr) :
    ContractState × Except StdErr HandleResult :=
  match get_allowance s owner spender with
  | .error e => (s, .error e)
  | .ok al => (s, .ok (.allowance owner spender al.amount))

/-- The HandleMsg requests of msg.rs (addresses already canonicalized). -/
inductive HandleMsg where
  | depositTo (toAddr : Addr) (value : Nat)
  | burnFrom (fromAddr : Addr) (value : Nat)
  | transfer (toAddr : Addr) (value : Nat)
  | transferFrom (fromAddr toAddr : Addr) (value : Nat)
  | approve (spender : Addr) (value : Nat)
  | allowance (owner spender : Addr)
deriving DecidableEq, Repr

/-- handle of contract.rs: dispatch a request to its operation. -/
def handle (s : ContractState) (sender : Addr) (msg : HandleMsg) :
    ContractState × Except StdErr HandleResult :=
  match msg with
  | .depositTo toAddr value => deposit_to s sender toAddr value
  | .burnFrom fromAddr value => burn_from s sender fromAddr value
  | .transfer toAddr value => transfer s sender toAddr value
  | .transferFrom fromAddr toAddr value => transfer_from s sender fromAddr toAddr value
  | .approve spender value => approve s sender spender value
  | .allowance owner spender => allowance s owner spender

/-- Query results for the read queries of contract.rs. -/
def query_name (s : ContractState) : Except StdErr (List Nat) :=
  match s.constants with
  | none => .error (.genericErr "no constants in storage")
  | some c => .ok c.name

/-- query_symbol of contract.rs. -/
def query_symbol (s : ContractState) : Except StdErr (List Nat) :=
  match s.constants with
  | none => .error (.genericErr "no constants in storage")
  | some c => .ok c.symbol

/-- query_decimals of contract.rs. -/
def query_decimals (s : ContractState) : Except StdErr Nat :=
  match s.constants with
  | none => .error (.genericErr "no constants in storage")
  | some c => .ok c.decimals

/-- query_total_supply of contract.rs; the missing-record error reuses the
"no constants in storage" message, exactly as state.rs line 119 does. -/
def query_total_supply (s : ContractState) : Except StdErr Nat :=
  match s.totalSupply with
  | none => .error (.genericErr "no constants in storage")
  | some t => .ok t

/-- query_balance_of of contract.rs on well-formed storage. -/
def query_balance_of (s : ContractState) (a : Addr) : Except StdErr Nat :=
  .ok (balance s a)

/-- States reachable from a freshly initialized contract by any sequence of
handle requests, keeping whatever state each operation leaves behind
whether it succeeds or fails. -/
inductive Reachable : ContractState → Prop where
  | origin (owner : Addr) (name symbol : List Nat) (decimals : Nat) :
      Reachable (init emptyState owner name symbol decimals)
  | step (s : ContractState) (sender : Addr) (msg : HandleMsg) :
      Reachable s → Reachable (handle s sender msg).1

/-- The keys of a key-value list. -/
def kvKeys {κ : Type} (l : List (κ × Nat)) : List κ := l.map Prod.fst

/-- A key-value list with no repeated key. -/
def KvNodup {κ : Type} (l : List (κ × Nat)) : Prop := (kvKeys l).Nodup

/-- Sum of every stored value of a key-value list. -/
def kvSum {κ : Type} (l : List (κ × Nat)) : Nat := (l.map Prod.snd).sum

/-- Bookkeeping invariant of the ledger: the balances namespace holds one
entry per address, and the stored TotalSupply is the sum of every stored
balance. -/
def SupplyInv (s : ContractState) : Prop :=
  KvNodup s.balances ∧ s.totalSupply = some (kvSum s.balances)

/-- A state whose stored recipient balance exceeds the stored total
supply (it violates the supply invariant, so no operation sequence
produces it): total supply 0, owner address 0, and one stored balance at
the 128-bit maximum for address 1. -/
def depositCounterState : ContractState :=
  { constants := some { name := [], symbol := [], decimals := 0, owner := [0] },
    totalSupply := some 0,
    balances := [([1], U128_MAX)],
    allowances := [] }

/-- A state whose stored balance exceeds the stored total supply (it
violates the supply invariant, so no operation sequence produces it):
total supply 0, owner address 0, and balance 5 for address 1. -/
def burnCounterState : ContractState :=
  { constants := some { name := [], symbol := [], decimals := 0, owner := [0] },
    totalSupply := some 0,
    balances := [([1], 5)],
    allowances := [] }

/-- A state with a stored allowance entry: address 1 granted address 2
an allowance of 60, and address 1 holds balance 60 (the setting of the
transfer_from scenario in the spec). -/
def storedAllowanceState : ContractState :=
  { constants := none, totalSupply := some 60,
    balances := [([1], 60)], allowances := [(([1], [2]), 60)] }

/-! ### Codec lemmas -/

theorem length_toBeBytes (w v : Nat) : (toBeBytes w v).length = w := by
  induction w generalizing v with
  | zero => simp [toBeBytes]
  | succ w ih => simp [toBeBytes, ih]

theorem mod_byte_pow_succ (w v : Nat) :
    v % 256 ^ (w + 1) = v % 256 + 256 * (v / 256 % 256 ^ w) := by
  have h : (256 : Nat) ^ (w + 1) = 256 * 256 ^ w := by ring
  rw [h, Nat.mod_mul]

theorem foldl_toBeBytes (w v acc : Nat) :
    (toBeBytes w v).foldl (fun acc b => acc * 256 + b) acc
      = acc * 256 ^ w + v % 256 ^ w := by
  induction w generalizing v acc with
  | zero => simp [toBeBytes, Nat.mod_one]
  | succ w ih =>
    simp only [toBeBytes, List.foldl_append, List.foldl_cons, List.foldl_nil, ih,
      mod_byte_pow_succ w v]
    ring

theorem fromBeBytes_toBeBytes (w v : Nat) :
    fromBeBytes (toBeBytes w v) = v % 256 ^ w := by
  simpa using foldl_toBeBytes w v 0

theorem fromLeBytes_toLeBytes (w v : Nat) :
    fromLeBytes (toLeBytes w v) = v % 256 ^ w := by
  induction w generalizing v with
  | zero => simp [toLeBytes, fromLeBytes, Nat.mod_one]
  | succ w ih =>
    simp only [toLeBytes, fromLeBytes, ih, mod_byte_pow_succ w v]

theorem length_toLeBytes (w v : Nat) : (toLeBytes w v).length = w := by
  induction w generalizing v with
  | zero => simp [toLeBytes]
  | succ w ih => simp [toLeBytes, ih]

theorem readBytes_append (xs rest : List Nat) :
    readBytes xs.length (xs ++ rest) = some (xs, rest) := by
  simp [readBytes, List.take_left, List.drop_left]

theorem readBytes_of_len {n : Nat} (xs rest : List Nat) (h : n = xs.length) :
    readBytes n (xs ++ rest) = some (xs, rest) := by
  subst h; exact readBytes_append xs rest

theorem toLeBytes_add (m n v : Nat) :
    toLeBytes (m + n) v = toLeBytes m v ++ toLeBytes n (v / 256 ^ m) := by
  induction m generalizing v with
  | zero => simp [toLeBytes]
  | succ m ih =>
    rw [show m + 1 + n = (m + n) + 1 by omega]
    have hdiv : v / 256 / 256 ^ m = v / 256 ^ (m + 1) := by
      rw [Nat.div_div_eq_div_mul]
      congr 1
      ring
    simp only [toLeBytes, ih, List.cons_append, hdiv]

theorem readBytes_toLeBytes16 (v : Nat) :
    readBytes 4 (toLeBytes 16 v)
      = some (toLeBytes 4 v, toLeBytes 12 (v / 256 ^ 4)) := by
  have h : toLeBytes 16 v = toLeBytes 4 v ++ toLeBytes 12 (v / 256 ^ 4) :=
    toLeBytes_add 4 12 v
  rw [h, readBytes_of_len _ _ (length_toLeBytes 4 v).symm]

/-- The bytes set_allowance writes (a bare 16-byte Allowance amount)
never decode at the type StdResult Allowance that get_allowance is
forced to use: whatever the stored amount, reading the entry fails with
the decode error. -/
theorem get_allowance_stored_fails (s : ContractState) (owner spender : Addr)
    (amount : Nat) (h : kvGet s.allowances (owner, spender) = some amount) :
    get_allowance s owner spender
      = .error (.serializeErr resultAllowanceTypeName) := by
  unfold get_allowance
  rw [h]
  dsimp only
  unfold deserializeResultAllowance serializeAllowance
  dsimp only
  rw [readBytes_toLeBytes16]
  dsimp only
  by_cases h0 : fromLeBytes (toLeBytes 4 amount) = 0
  · rw [if_pos h0]
    unfold deserializeAllowance
    rw [if_neg (by rw [length_toLeBytes]; omega)]
  · rw [if_neg h0]

/-! ### Key-value list lemmas -/

theorem kvGet_kvSet_self {κ : Type} [DecidableEq κ] (l : List (κ × Nat))
    (k : κ) (v : Nat) : kvGet (kvSet l k v) k = some v := by
  induction l with
  | nil => simp [kvSet, kvGet]
  | cons p rest ih =>
    by_cases h : p.1 = k
    · simp [kvSet, h, kvGet]
    · simp [kvSet, h, kvGet, ih]

theorem kvGet_kvSet_ne {κ : Type} [DecidableEq κ] (l : List (κ × Nat))
    {k k2 : κ} (v : Nat) (h : k ≠ k2) :
    kvGet (kvSet l k v) k2 = kvGet l k2 := by
  induction l with
  | nil => simp [kvSet, kvGet, h]
  | cons p rest ih =>
    by_cases hp : p.1 = k
    · have hpk2 : p.1 ≠ k2 := by rw [hp]; exact h
      simp [kvSet, hp, kvGet, h, hpk2]
    · rw [show kvSet (p :: rest) k v = p :: kvSet rest k v by simp [kvSet, hp]]
      by_cases hp2 : p.1 = k2
      · simp only [kvGet, hp2, if_true]
      · simp only [kvGet, hp2, if_false, ite_false, ih]

theorem mem_kvKeys_kvSet {κ : Type} [DecidableEq κ] (l : List (κ × Nat))
    (k x : κ) (v : Nat) (hx : x ∈ kvKeys (kvSet l k v)) :
    x ∈ kvKeys l ∨ x = k := by
  induction l with
  | nil => simp [kvSet, kvKeys] at hx; right; exact hx
  | cons p rest ih =>
    by_cases hp : p.1 = k
    · simp [kvSet, hp, kvKeys] at hx
      rcases hx with h | h
      · right; exact h
      · left; simp [kvKeys]; right; exact h
    · simp [kvSet, hp, kvKeys] at hx
      rcases hx with h | h
      · left; simp [kvKeys, h]
      · rcases ih (by simpa [kvKeys] using h) with h2 | h2
        · left; simp [kvKeys] at h2 ⊢; right; exact h2
        · right; exact h2

theorem kvNodup_kvSet {κ : Type} [DecidableEq κ] (l : List (κ × Nat))
    (k : κ) (v : Nat) (h : KvNodup l) : KvNodup (kvSet l k v) := by
  induction l with
  | nil => simp [kvSet, KvNodup, kvKeys]
  | cons p rest ih =>
    rw [KvNodup, kvKeys, List.map_cons, List.nodup_cons] at h
    by_cases hp : p.1 = k
    · rw [KvNodup, kvKeys]
      simp only [kvSet, hp, if_true, List.map_cons, List.nodup_cons]
      exact ⟨hp ▸ h.1, h.2⟩
    · have h2 : KvNodup rest := h.2
      have h3 : p.1 ∉ kvKeys (kvSet rest k v) := by
        intro hmem
        rcases mem_kvKeys_kvSet rest k p.1 v hmem with hc | hc
        · exact h.1 hc
        · exact hp hc
      rw [KvNodup, kvKeys]
      simp only [kvSet, hp, if_false, ite_false, List.map_cons, List.nodup_cons]
      exact ⟨h3, ih h2⟩

theorem kvGet_le_kvSum {κ : Type} [DecidableEq κ] (l : List (κ × Nat)) (k : κ) :
    (kvGet l k).getD 0 ≤ kvSum l := by
  induction l with
  | nil => simp [kvGet, kvSum]
  | cons p rest ih =>
    by_cases hp : p.1 = k
    · simp only [kvGet, hp, if_true, kvSum, List.map_cons, List.sum_cons, Option.getD_some]
      omega
    · simp only [kvGet, hp, if_false, ite_false, kvSum, List.map_cons, List.sum_cons]
      have := ih
      simp only [kvSum] at this
      omega

theorem kvSum_kvSet {κ : Type} [DecidableEq κ] (l : List (κ × Nat))
    (k : κ) (v : Nat) :
    kvSum (kvSet l k v) + (kvGet l k).getD 0 = kvSum l + v := by
  induction l with
  | nil => simp [kvSet, kvGet, kvSum]
  | cons p rest ih =>
    by_cases hp : p.1 = k
    · simp only [kvSet, hp, if_true, kvGet, kvSum, List.map_cons, List.sum_cons,
        Option.getD_some]
      omega
    · simp only [kvSet, hp, if_false, ite_false, kvGet, kvSum, List.map_cons,
        List.sum_cons]
      simp only [kvSum] at ih
      omega

theorem kvGet_eq_none_of_not_mem {κ : Type} [DecidableEq κ]
    (l : List (κ × Nat)) (k : κ) (h : k ∉ kvKeys l) : kvGet l k = none := by
  induction l with
  | nil => simp [kvGet]
  | cons p rest ih =>
    rw [kvKeys, List.map_cons, List.mem_cons] at h
    push_neg at h
    have hp : p.1 ≠ k := fun hc => h.1 hc.symm
    simp only [kvGet, hp, if_false, ite_false]
    exact ih h.2

theorem sum_kvGet_eq_kvSum {κ : Type} [DecidableEq κ] (l : List (κ × Nat))
    (h : KvNodup l) (A : Finset κ) (hA : ∀ p ∈ l, p.1 ∈ A) :
    (∑ a ∈ A, (kvGet l a).getD 0) = kvSum l := by
  induction l with
  | nil => simp [kvGet, kvSum]
  | cons p rest ih =>
    have h1 : p.1 ∉ kvKeys rest :=
      (List.nodup_cons.mp (by simpa [KvNodup, kvKeys] using h)).1
    have h2 : KvNodup rest := by
      simpa [KvNodup, kvKeys] using (List.nodup_cons.mp (by simpa [KvNodup, kvKeys] using h)).2
    have hrest : ∀ q ∈ rest, q.1 ∈ A := fun q hq => hA q (List.mem_cons_of_mem p hq)
    have hz : kvGet rest p.1 = none := kvGet_eq_none_of_not_mem rest p.1 h1
    have hpt : ∀ a : κ, (kvGet (p :: rest) a).getD 0
        = (kvGet rest a).getD 0 + (if p.1 = a then p.2 else 0) := by
      intro a
      by_cases hp : p.1 = a
      · subst hp; simp [kvGet, hz]
      · simp [kvGet, hp]
    calc (∑ a ∈ A, (kvGet (p :: rest) a).getD 0)
        = (∑ a ∈ A, ((kvGet rest a).getD 0 + if p.1 = a then p.2 else 0)) := by
          exact Finset.sum_congr rfl fun a _ => hpt a
      _ = (∑ a ∈ A, (kvGet rest a).getD 0) + (∑ a ∈ A, if p.1 = a then p.2 else 0) :=
          Finset.sum_add_distrib
      _ = kvSum rest + p.2 := by
          rw [ih h2 hrest, Finset.sum_ite_eq A p.1 (fun _ => p.2),
            if_pos (hA p (List.mem_cons_self p rest))]
      _ = kvSum (p :: rest) := by simp [kvSum]; omega

/-! ### Checked-arithmetic characterizations -/

theorem checked_add_eq_some {x y z : Nat} :
    checked_add x y = some z ↔ x + y ≤ U128_MAX ∧ z = x + y := by
  unfold checked_add
  split_ifs with h
  · simp [h, eq_comm]
  · simp [h]

theorem checked_add_eq_none {x y : Nat} :
    checked_add x y = none ↔ U128_MAX < x + y := by
  unfold checked_add
  split_ifs with h <;> simp <;> omega

theorem checked_sub_eq_some {x y z : Nat} :
    checked_sub x y = some z ↔ y ≤ x ∧ z = x - y := by
  unfold checked_sub
  split_ifs with h
  · simp [h, eq_comm]
  · simp [h]

theorem checked_sub_eq_none {x y : Nat} :
    checked_sub x y = none ↔ x < y := by
  unfold checked_sub
  split_ifs with h <;> simp <;> omega

/-! ### The supply invariant and its preservation by every operation -/

theorem deposit_to_supplyInv (s : ContractState) (sender toA : Addr)
    (value : Nat) (h : SupplyInv s) :
    SupplyInv (deposit_to s sender toA value).1 := by
  rcases h with ⟨hnd, hts⟩
  unfold deposit_to
  split
  · exact ⟨hnd, hts⟩
  split
  · exact ⟨hnd, hts⟩
  split
  · exact ⟨hnd, hts⟩
  split
  · exact ⟨hnd, hts⟩
  next total_supply hsup =>
  split
  · exact ⟨hnd, hts⟩
  next new_total hadd =>
  have hts2 : total_supply = kvSum s.balances := by
    rw [hsup] at hts; exact Option.some.inj hts
  have hb : (kvGet s.balances toA).getD 0 ≤ kvSum s.balances :=
    kvGet_le_kvSum s.balances toA
  obtain ⟨hle, hnew⟩ := checked_add_eq_some.mp hadd
  split
  · next hnone =>
    have hlt := checked_add_eq_none.mp hnone
    simp only [balance] at hlt
    omega
  · next new_balance hbal =>
    obtain ⟨hle2, hnew2⟩ := checked_add_eq_some.mp hbal
    constructor
    · exact kvNodup_kvSet s.balances toA new_balance hnd
    · have hsum := kvSum_kvSet s.balances toA new_balance
      simp only [set_balance]
      simp only [balance] at hnew2
      congr 1
      omega

theorem burn_from_supplyInv (s : ContractState) (sender fromA : Addr)
    (value : Nat) (h : SupplyInv s) :
    SupplyInv (burn_from s sender fromA value).1 := by
  rcases h with ⟨hnd, hts⟩
  unfold burn_from
  split
  · exact ⟨hnd, hts⟩
  split
  · exact ⟨hnd, hts⟩
  split
  · exact ⟨hnd, hts⟩
  split
  · exact ⟨hnd, hts⟩
  next new_balance hsub =>
  obtain ⟨hle, hnew⟩ := checked_sub_eq_some.mp hsub
  simp only [balance] at hle hnew
  have hb : (kvGet s.balances fromA).getD 0 ≤ kvSum s.balances :=
    kvGet_le_kvSum s.balances fromA
  split
  · next hnone =>
    exfalso
    simp only [set_balance] at hnone
    rw [hts] at hnone
    exact Option.noConfusion hnone
  · next total_supply hsup =>
    simp only [set_balance] at hsup
    rw [hts] at hsup
    have hts2 : total_supply = kvSum s.balances := (Option.some.inj hsup).symm
    split
    · next hnone =>
      have hlt := checked_sub_eq_none.mp hnone
      omega
    · next new_total hsub2 =>
      obtain ⟨hle2, hnew2⟩ := checked_sub_eq_some.mp hsub2
      constructor
      · exact kvNodup_kvSet s.balances fromA new_balance hnd
      · have hsum := kvSum_kvSet s.balances fromA new_balance
        simp only [set_balance]
        congr 1
        omega

theorem transfer_supplyInv (s : ContractState) (sender toA : Addr)
    (value : Nat) (h : SupplyInv s) :
    SupplyInv (transfer s sender toA value).1 := by
  rcases h with ⟨hnd, hts⟩
  unfold transfer
  split
  · exact ⟨hnd, hts⟩
  split
  · exact ⟨hnd, hts⟩
  next hne =>
  split
  · exact ⟨hnd, hts⟩
  next new_sender_balance hsub =>
  split
  · exact ⟨hnd, hts⟩
  next new_recipient_balance hadd =>
  obtain ⟨hle, hnew⟩ := checked_sub_eq_some.mp hsub
  obtain ⟨hle2, hnew2⟩ := checked_add_eq_some.mp hadd
  simp only [balance] at hle hnew hle2 hnew2
  constructor
  · exact kvNodup_kvSet _ toA new_recipient_balance
      (kvNodup_kvSet s.balances sender new_sender_balance hnd)
  · have hsum1 := kvSum_kvSet s.balances sender new_sender_balance
    have hsum2 := kvSum_kvSet (kvSet s.balances sender new_sender_balance)
      toA new_recipient_balance
    have hgets : kvGet (kvSet s.balances sender new_sender_balance) toA
        = kvGet s.balances toA :=
      kvGet_kvSet_ne s.balances new_sender_balance hne
    rw [hgets] at hsum2
    simp only [set_balance]
    rw [hts]
    congr 1
    omega

theorem transfer_from_supplyInv (s : ContractState) (sender fromA toA : Addr)
    (value : Nat) (h : SupplyInv s) :
    SupplyInv (transfer_from s sender fromA toA value).1 := by
  rcases h with ⟨hnd, hts⟩
  unfold transfer_from
  split
  · exact ⟨hnd, hts⟩
  split
  · exact ⟨hnd, hts⟩
  split
  · exact ⟨hnd, hts⟩
  next hne =>
  split
  · exact ⟨hnd, hts⟩
  split
  · exact ⟨hnd, hts⟩
  next new_allowance hsuba =>
  split
  · exact ⟨hnd, hts⟩
  next new_account_balance hsub =>
  split
  · exact ⟨hnd, hts⟩
  next new_recipient_balance hadd =>
  obtain ⟨hle, hnew⟩ := checked_sub_eq_some.mp hsub
  obtain ⟨hle2, hnew2⟩ := checked_add_eq_some.mp hadd
  simp only [balance] at hle hnew hle2 hnew2
  constructor
  · exact kvNodup_kvSet _ toA new_recipient_balance
      (kvNodup_kvSet s.balances fromA new_account_balance hnd)
  · have hsum1 := kvSum_kvSet s.balances fromA new_account_balance
    have hsum2 := kvSum_kvSet (kvSet s.balances fromA new_account_balance)
      toA new_recipient_balance
    have hgets : kvGet (kvSet s.balances fromA new_account_balance) toA
        = kvGet s.balances toA :=
      kvGet_kvSet_ne s.balances new_account_balance hne
    rw [hgets] at hsum2
    simp only [set_allowance, set_balance]
    rw [hts]
    congr 1
    omega

theorem approve_supplyInv (s : ContractState) (sender spender : Addr)
    (value : Nat) (h : SupplyInv s) :
    SupplyInv (approve s sender spender value).1 := by
  rcases h with ⟨hnd, hts⟩
  unfold approve
  split
  · exact ⟨hnd, hts⟩
  split
  · exact ⟨hnd, hts⟩
  split
  · exact ⟨hnd, hts⟩
  · exact ⟨hnd, hts⟩

theorem handle_supplyInv (s : ContractState) (sender : Addr) (msg : HandleMsg)
    (h : SupplyInv s) : SupplyInv (handle s sender msg).1 := by
  cases msg with
  | depositTo toA value => exact deposit_to_supplyInv s sender toA value h
  | burnFrom fromA value => exact burn_from_supplyInv s sender fromA value h
  | transfer toA value => exact transfer_supplyInv s sender toA value h
  | transferFrom fromA toA value =>
    exact transfer_from_supplyInv s sender fromA toA value h
  | approve spender value => exact approve_supplyInv s sender spender value h
  | allowance owner spender =>
    show SupplyInv (allowance s owner spender).1
    unfold allowance
    split
    · exact h
    · exact h

theorem reachable_supplyInv (s : ContractState) (h : Reachable s) :
    SupplyInv s := by
  induction h with
  | origin owner name symbol decimals =>
    exact ⟨by simp [init, emptyState, KvNodup, kvKeys],
      by simp [init, emptyState, kvSum]⟩
  | step s sender msg hs ih => exact handle_supplyInv s sender msg ih

/-! ### Claim theorems -/

/-- C3: for every state reachable from the initialized state by any
sequence of operations (including operations that return errors), the
stored TotalSupply equals the sum of Balance(address) over all addresses:
over any finite address universe covering every stored balance entry, the
total supply is the sum of the balance reads. -/
theorem total_supply_eq_sum_of_balances (s : ContractState) (h : Reachable s)
    (A : Finset Addr) (hA : ∀ p ∈ s.balances, p.1 ∈ A) :
    s.totalSupply = some (∑ a ∈ A, balance s a) := by
  obtain ⟨hnd, hts⟩ := reachable_supplyInv s h
  rw [hts]
  congr 1
  simp only [balance]
  exact (sum_kvGet_eq_kvSum s.balances hnd A hA).symm

/-- Witness for C3: initialize as address 0, deposit 5 to address 1, and
check the sum over the address universe consisting of address 1. -/
theorem total_supply_eq_sum_of_balances_witness :
    (handle (init emptyState [0] [] [] 0) [0] (.depositTo [1] 5)).1.totalSupply
      = some (∑ a ∈ ({[1]} : Finset Addr),
          balance (handle (init emptyState [0] [] [] 0) [0] (.depositTo [1] 5)).1 a) :=
  total_supply_eq_sum_of_balances _
    (Reachable.step _ _ _ (Reachable.origin [0] [] [] 0)) {[1]} (by decide)

/-- C4: on a stored balance byte string that is not exactly 16 bytes,
slice_to_u128 itself returns an error value, but that error is a generic
corrupted-data message without the expected type name, and the balance
reader unwraps it, so the read aborts (no value outcome) instead of
propagating an error value to the caller. -/
theorem balance_read_aborts_on_malformed_bytes :
    slice_to_u128 [0]
      = .error (.genericErr "corrupted data, can not convert to u128") ∧
    balance_bytes_read (some [0]) = none := by
  exact ⟨rfl, rfl⟩

/-- C5 fails on the code: the cumulative-approval scenario of the claim
breaks at the second approve. The first approve of 50 (no stored entry)
succeeds and stores 50, but the second approve of 10 must read the
stored entry back, and the bytes written at type Allowance never decode
at the type StdResult Allowance forced at state.rs line 192, so the
second approve returns the decode error instead of storing 60, and the
stored allowance stays at 50. -/
theorem approve_rereads_stored_allowance_and_fails :
    (approve emptyState [1] [2] 50).2 = .ok .approve ∧
    kvGet (approve emptyState [1] [2] 50).1.allowances ([1], [2]) = some 50 ∧
    (approve (approve emptyState [1] [2] 50).1 [1] [2] 10).2
      = .error (.serializeErr resultAllowanceTypeName) ∧
    (approve (approve emptyState [1] [2] 50).1 [1] [2] 10).1
      = (approve emptyState [1] [2] 50).1 :=
  ⟨rfl, rfl, rfl, rfl⟩

/-- C10 fails on the code: its hypotheses (a nonzero value within the
allowance of (from, caller)) require a stored allowance entry, and any
transfer_from against a stored entry fails inside the allowance read
(contract.rs line 208) with the decode error of the forced
StdResult-Allowance deserialization. No check relates the caller and
the recipient, but with the caller as recipient the operation still
returns the decode error and credits nothing instead of succeeding. -/
theorem transfer_from_to_caller_fails_at_allowance_read :
    kvGet storedAllowanceState.allowances ([1], [2]) = some 60 ∧
    balance storedAllowanceState [1] = 60 ∧
    (transfer_from storedAllowanceState [2] [1] [2] 4).2
      = .error (.serializeErr resultAllowanceTypeName) ∧
    (transfer_from storedAllowanceState [2] [1] [2] 4).1
      = storedAllowanceState :=
  ⟨rfl, rfl, rfl, rfl⟩

/-- C6 fails on the code: with a stored allowance of 60 for owner 1 and
spender 2 and source balance 60, a transfer_from by caller 2 within the
allowance (value 60) is not executed, and one beyond it (value 61) is
not rejected with the insufficient-allowance error: both fail with the
decode error of the allowance read (contract.rs line 208), before the
allowance comparison, leaving the state unchanged. -/
theorem transfer_from_fails_at_allowance_read :
    kvGet storedAllowanceState.allowances ([1], [2]) = some 60 ∧
    balance storedAllowanceState [1] = 60 ∧
    (transfer_from storedAllowanceState [2] [1] [3] 60).2
      = .error (.serializeErr resultAllowanceTypeName) ∧
    (transfer_from storedAllowanceState [2] [1] [3] 60).1
      = storedAllowanceState ∧
    (transfer_from storedAllowanceState [2] [1] [3] 61).2
      = .error (.serializeErr resultAllowanceTypeName) ∧
    (transfer_from storedAllowanceState [2] [1] [3] 61).1
      = storedAllowanceState :=
  ⟨rfl, rfl, rfl, rfl, rfl, rfl⟩

/-- C7: transfer leaves the total supply, the allowances and the constants
unchanged whether it succeeds or fails; any rejection leaves the whole
state unchanged, and success debits the balance of the caller by the value,
credits the balance of the recipient by the value, both committed together,
and changes no other balance. -/
theorem transfer_atomicity_and_frame (s : ContractState) (sender toA : Addr)
    (value : Nat) :
    (transfer s sender toA value).1.totalSupply = s.totalSupply ∧
    (transfer s sender toA value).1.allowances = s.allowances ∧
    (transfer s sender toA value).1.constants = s.constants ∧
    (∀ e, (transfer s sender toA value).2 = .error e
      → (transfer s sender toA value).1 = s) ∧
    ((transfer s sender toA value).2.isOk = true
      → value ≤ balance s sender ∧
        balance (transfer s sender toA value).1 sender
          = balance s sender - value ∧
        balance (transfer s sender toA value).1 toA
          = balance s toA + value ∧
        ∀ a, a ≠ sender → a ≠ toA
          → balance (transfer s sender toA value).1 a = balance s a) := by
  unfold transfer
  by_cases hv : value = 0
  · rw [if_pos hv]
    exact ⟨by trivial, by trivial, by trivial, by intro e he; trivial,
      by intro hco; simp [Except.isOk, Except.toBool] at hco⟩
  rw [if_neg hv]
  by_cases hst : sender = toA
  · rw [if_pos hst]
    exact ⟨by trivial, by trivial, by trivial, by intro e he; trivial,
      by intro hco; simp [Except.isOk, Except.toBool] at hco⟩
  rw [if_neg hst]
  rcases hc1 : checked_sub (balance s sender) value with _ | nsb
  · simp only [hc1]
    exact ⟨by trivial, by trivial, by trivial, by intro e he; trivial,
      by intro hco; simp [Except.isOk, Except.toBool] at hco⟩
  obtain ⟨hle1, hnsb⟩ := checked_sub_eq_some.mp hc1
  rcases hc2 : checked_add (balance s toA) value with _ | nrb
  · simp only [hc1, hc2]
    exact ⟨by trivial, by trivial, by trivial, by intro e he; trivial,
      by intro hco; simp [Except.isOk, Except.toBool] at hco⟩
  obtain ⟨hle2, hnrb⟩ := checked_add_eq_some.mp hc2
  simp only [hc1, hc2]
  refine ⟨by trivial, by trivial, by trivial, by intro e he; simp at he,
    fun _ => ?_⟩
  refine ⟨hle1, ?_, ?_, ?_⟩
  · simp only [balance, set_balance]
    rw [kvGet_kvSet_ne _ _ (fun hcc => hst hcc.symm), kvGet_kvSet_self]
    simp [hnsb, balance]
  · simp only [balance, set_balance, kvGet_kvSet_self, Option.getD_some, hnrb]
  · intro a has hat
    simp only [balance, set_balance]
    rw [kvGet_kvSet_ne _ _ (fun hcc => hat hcc.symm),
      kvGet_kvSet_ne _ _ (fun hcc => has hcc.symm)]

/-- Witness for C7 at a concrete successful input: address 1 sends 3 of
its 5 tokens to address 2. -/
theorem transfer_atomicity_and_frame_witness :
    (transfer
        { constants := none, totalSupply := some 5,
          balances := [([1], 5)], allowances := [] } [1] [2] 3).1.totalSupply
      = ContractState.totalSupply
          { constants := none, totalSupply := some 5,
            balances := [([1], 5)], allowances := [] } ∧
    (transfer
        { constants := none, totalSupply := some 5,
          balances := [([1], 5)], allowances := [] } [1] [2] 3).1.allowances
      = ContractState.allowances
          { constants := none, totalSupply := some 5,
            balances := [([1], 5)], allowances := [] } ∧
    (transfer
        { constants := none, totalSupply := some 5,
          balances := [([1], 5)], allowances := [] } [1] [2] 3).1.constants
      = ContractState.constants
          { constants := none, totalSupply := some 5,
            balances := [([1], 5)], allowances := [] } ∧
    (∀ e, (transfer
        { constants := none, totalSupply := some 5,
          balances := [([1], 5)], allowances := [] } [1] [2] 3).2 = .error e
      → (transfer
          { constants := none, totalSupply := some 5,
            balances := [([1], 5)], allowances := [] } [1] [2] 3).1
        = { constants := none, totalSupply := some 5,
            balances := [([1], 5)], allowances := [] }) ∧
    ((transfer
        { constants := none, totalSupply := some 5,
          balances := [([1], 5)], allowances := [] } [1] [2] 3).2.isOk = true
      → 3 ≤ balance
            { constants := none, totalSupply := some 5,
              balances := [([1], 5)], allowances := [] } [1] ∧
        balance (transfer
            { constants := none, totalSupply := some 5,
              balances := [([1], 5)], allowances := [] } [1] [2] 3).1 [1]
          = balance
              { constants := none, totalSupply := some 5,
                balances := [([1], 5)], allowances := [] } [1] - 3 ∧
        balance (transfer
            { constants := none, totalSupply := some 5,
              balances := [([1], 5)], allowances := [] } [1] [2] 3).1 [2]
          = balance
              { constants := none, totalSupply := some 5,
                balances := [([1], 5)], allowances := [] } [2] + 3 ∧
        ∀ a, a ≠ [1] → a ≠ [2]
          → balance (transfer
              { constants := none, totalSupply := some 5,
                balances := [([1], 5)], allowances := [] } [1] [2] 3).1 a
            = balance
                { constants := none, totalSupply := some 5,
                  balances := [([1], 5)], allowances := [] } a) :=
  transfer_atomicity_and_frame
    { constants := none, totalSupply := some 5,
      balances := [([1], 5)], allowances := [] } [1] [2] 3

/-- C8: the balance and allowance reads return 0, not an error, when no
entry is stored for the address or pair, while the name, symbol, decimals
and total-supply queries fail with an error when the Constants or
TotalSupply record is missing from storage. -/
theorem default_zero_reads_and_missing_records (s : ContractState)
    (a owner spender : Addr) :
    (kvGet s.balances a = none → query_balance_of s a = .ok 0) ∧
    (kvGet s.allowances (owner, spender) = none
      → (allowance s owner spender).2 = .ok (.allowance owner spender 0)) ∧
    (s.constants = none →
      query_name s = .error (.genericErr "no constants in storage") ∧
      query_symbol s = .error (.genericErr "no constants in storage") ∧
      query_decimals s = .error (.genericErr "no constants in storage")) ∧
    (s.totalSupply = none →
      query_total_supply s = .error (.genericErr "no constants in storage")) := by
  refine ⟨?_, ?_, ?_, ?_⟩
  · intro hb
    simp [query_balance_of, balance, hb]
  · intro ha
    simp [allowance, get_allowance, ha]
  · intro hc
    exact ⟨by simp [query_name, hc], by simp [query_symbol, hc],
      by simp [query_decimals, hc]⟩
  · intro ht
    simp [query_total_supply, ht]

/-- Witness for C8: a state with the Constants record present and a
nonzero supply, address 1 holding a balance, and one stored allowance,
but no entry for address 7 or for the pair (8, 9); plus, for the
missing-record failures, the state with nothing in storage. -/
theorem default_zero_reads_and_missing_records_witness :
    (kvGet (init storedAllowanceState [4] [] [] 0).balances [7] = none
      → query_balance_of (init storedAllowanceState [4] [] [] 0) [7] = .ok 0) ∧
    (kvGet (init storedAllowanceState [4] [] [] 0).allowances ([8], [9]) = none
      → (allowance (init storedAllowanceState [4] [] [] 0) [8] [9]).2
        = .ok (.allowance [8] [9] 0)) ∧
    ((init storedAllowanceState [4] [] [] 0).constants = none →
      query_name (init storedAllowanceState [4] [] [] 0)
        = .error (.genericErr "no constants in storage") ∧
      query_symbol (init storedAllowanceState [4] [] [] 0)
        = .error (.genericErr "no constants in storage") ∧
      query_decimals (init storedAllowanceState [4] [] [] 0)
        = .error (.genericErr "no constants in storage")) ∧
    ((init storedAllowanceState [4] [] [] 0).totalSupply = none →
      query_total_supply (init storedAllowanceState [4] [] [] 0)
        = .error (.genericErr "no constants in storage")) ∧
    ((emptyState.constants = none →
      query_name emptyState = .error (.genericErr "no constants in storage") ∧
      query_symbol emptyState = .error (.genericErr "no constants in storage") ∧
      query_decimals emptyState = .error (.genericErr "no constants in storage")) ∧
    (emptyState.totalSupply = none →
      query_total_supply emptyState
        = .error (.genericErr "no constants in storage"))) :=
  ⟨(default_zero_reads_and_missing_records
      (init storedAllowanceState [4] [] [] 0) [7] [8] [9]).1,
   (default_zero_reads_and_missing_records
      (init storedAllowanceState [4] [] [] 0) [7] [8] [9]).2.1,
   (default_zero_reads_and_missing_records
      (init storedAllowanceState [4] [] [] 0) [7] [8] [9]).2.2.1,
   (default_zero_reads_and_missing_records
      (init storedAllowanceState [4] [] [] 0) [7] [8] [9]).2.2.2,
   (default_zero_reads_and_missing_records emptyState [7] [8] [9]).2.2.1,
   (default_zero_reads_and_missing_records emptyState [7] [8] [9]).2.2.2⟩

theorem readBytes_all (bs : List Nat) : readBytes bs.length bs = some (bs, []) := by
  simp [readBytes]

/-- C9: decoding inverts encoding: a 128-bit value encodes as exactly 16
big-endian bytes which slice_to_u128 decodes back, and the serialized
Allowance and Constants records (with in-range fields: a 128-bit amount,
a byte-sized decimals and byte strings whose lengths fit the u64 length
fields) decode back to the original record. -/
theorem codec_round_trip (v : Nat) (a : Allowance) (c : Constants)
    (hv : v ≤ U128_MAX) (ha : a.amount ≤ U128_MAX)
    (hn : c.name.length < 2 ^ 64) (hs : c.symbol.length < 2 ^ 64)
    (hd : c.decimals < 256) (ho : c.owner.length < 2 ^ 64) :
    (u128_to_be_bytes v).length = 16 ∧
    slice_to_u128 (u128_to_be_bytes v) = .ok v ∧
    deserializeAllowance (serializeAllowance a) = .ok a ∧
    deserializeConstants (serializeConstants c) = .ok c := by
  have h256 : (256 : Nat) ^ 16 = 2 ^ 128 := by norm_num
  have h2564 : (256 : Nat) ^ 8 = 2 ^ 64 := by norm_num
  refine ⟨length_toBeBytes 16 v, ?_, ?_, ?_⟩
  · unfold slice_to_u128 u128_to_be_bytes
    rw [if_pos (length_toBeBytes 16 v), fromBeBytes_toBeBytes, h256,
      Nat.mod_eq_of_lt (by simp only [U128_MAX] at hv; omega)]
  · obtain ⟨am⟩ := a
    simp only [U128_MAX] at ha
    unfold deserializeAllowance serializeAllowance
    rw [if_pos (by rw [length_toLeBytes])]
    have htake : (toLeBytes 16 am).take 16 = toLeBytes 16 am :=
      List.take_of_length_le (by rw [length_toLeBytes])
    rw [htake, fromLeBytes_toLeBytes, h256, Nat.mod_eq_of_lt (by omega)]
  · obtain ⟨nm, sy, de, ow⟩ := c
    dsimp only at hn hs hd ho
    unfold serializeConstants deserializeConstants
    simp only [List.append_assoc, List.cons_append, List.nil_append,
      List.singleton_append]
    rw [readBytes_of_len _ _ (length_toLeBytes 8 nm.length).symm]
    dsimp only
    rw [fromLeBytes_toLeBytes, h2564, Nat.mod_eq_of_lt hn,
      readBytes_of_len nm _ rfl]
    dsimp only
    rw [readBytes_of_len _ _ (length_toLeBytes 8 sy.length).symm]
    dsimp only
    rw [fromLeBytes_toLeBytes, h2564, Nat.mod_eq_of_lt hs,
      readBytes_of_len sy _ rfl]
    dsimp only
    rw [readBytes_of_len _ _ (length_toLeBytes 8 ow.length).symm]
    dsimp only
    rw [fromLeBytes_toLeBytes, h2564, Nat.mod_eq_of_lt ho, readBytes_all ow]

/-- Witness for C9 at concrete values: the u128 value 69, the Allowance
amount 50, and a Constants record like the one in the repository tests. -/
theorem codec_round_trip_witness :
    (u128_to_be_bytes 69).length = 16 ∧
    slice_to_u128 (u128_to_be_bytes 69) = .ok 69 ∧
    deserializeAllowance (serializeAllowance { amount := 50 })
      = .ok { amount := 50 } ∧
    deserializeConstants (serializeConstants
        { name := [116, 101, 115, 116], symbol := [33, 64, 35, 36],
          decimals := 69, owner := [99] })
      = .ok { name := [116, 101, 115, 116], symbol := [33, 64, 35, 36],
              decimals := 69, owner := [99] } :=
  codec_round_trip 69 { amount := 50 }
    { name := [116, 101, 115, 116], symbol := [33, 64, 35, 36],
      decimals := 69, owner := [99] }
    (by decide) (by decide) (by decide) (by decide) (by decide) (by decide)

/-- C1 as stated is false on the code: in depositCounterState the owner
deposits 1 token to address 1; the total supply plus the value fits in
128 bits while the recipient balance plus the value does not, the
operation is rejected with the account-balance-overflow error, yet the
returned state does not keep the old total supply: the supply write had
already been persisted. -/
theorem deposit_overflow_counterexample :
    0 + 1 ≤ U128_MAX ∧
    U128_MAX < balance depositCounterState [1] + 1 ∧
    depositCounterState.totalSupply = some 0 ∧
    (deposit_to depositCounterState [0] [1] 1).2
      = .error (.genericErr "Account balance overflow") ∧
    (deposit_to depositCounterState [0] [1] 1).1.totalSupply
      ≠ depositCounterState.totalSupply := by
  refine ⟨by decide, by decide, rfl, rfl, by decide⟩

/-- C1 amended: a deposit rejected for zero value, missing records, an
unauthorized sender or total-supply overflow leaves the state unchanged;
a deposit rejected by the recipient-balance overflow check leaves the
balances, allowances and constants unchanged but has already persisted
the total-supply write, so the returned state stores the old total
supply plus the value (possible only when the recipient balance exceeds
the total supply, which no reachable state exhibits). -/
theorem deposit_to_rejection_effects (s : ContractState) (sender toA : Addr)
    (value : Nat) (e : StdErr)
    (h : (deposit_to s sender toA value).2 = .error e) :
    (deposit_to s sender toA value).1.balances = s.balances ∧
    (deposit_to s sender toA value).1.allowances = s.allowances ∧
    (deposit_to s sender toA value).1.constants = s.constants ∧
    (e ≠ .genericErr "Account balance overflow"
      → (deposit_to s sender toA value).1 = s) ∧
    (e = .genericErr "Account balance overflow"
      → ∃ ts, s.totalSupply = some ts ∧ value ≠ 0 ∧ ts + value ≤ U128_MAX ∧
          U128_MAX < balance s toA + value ∧
          (deposit_to s sender toA value).1.totalSupply = some (ts + value)) := by
  by_cases hv : value = 0
  · have heq : deposit_to s sender toA value
        = (s, .error (.genericErr "Can not deposit zero tokens")) := by
      unfold deposit_to; rw [if_pos hv]
    rw [heq] at h ⊢
    injection h with h2
    exact ⟨rfl, rfl, rfl, fun _ => rfl, fun hco => absurd (h2.trans hco) (by decide)⟩
  rcases Option.eq_none_or_eq_some s.constants with hc | ⟨c, hc⟩
  · have heq : deposit_to s sender toA value
        = (s, .error (.genericErr "no constants in storage")) := by
      unfold deposit_to; rw [if_neg hv, hc]
    rw [heq] at h ⊢
    injection h with h2
    exact ⟨rfl, rfl, rfl, fun _ => rfl, fun hco => absurd (h2.trans hco) (by decide)⟩
  by_cases hso : sender ≠ c.owner
  · have heq : deposit_to s sender toA value
        = (s, .error (.genericErr "Only contract owner can deposit tokens")) := by
      unfold deposit_to; rw [if_neg hv, hc]; dsimp only; rw [if_pos hso]
    rw [heq] at h ⊢
    injection h with h2
    exact ⟨rfl, rfl, rfl, fun _ => rfl, fun hco => absurd (h2.trans hco) (by decide)⟩
  rcases Option.eq_none_or_eq_some s.totalSupply with hts | ⟨ts, hts⟩
  · have heq : deposit_to s sender toA value
        = (s, .error (.genericErr "no constants in storage")) := by
      unfold deposit_to; rw [if_neg hv, hc]; dsimp only; rw [if_neg hso, hts]
    rw [heq] at h ⊢
    injection h with h2
    exact ⟨rfl, rfl, rfl, fun _ => rfl, fun hco => absurd (h2.trans hco) (by decide)⟩
  rcases Option.eq_none_or_eq_some (checked_add ts value) with hadd | ⟨new_total, hadd⟩
  · have heq : deposit_to s sender toA value
        = (s, .error (.genericErr "Total supply overflow")) := by
      unfold deposit_to; rw [if_neg hv, hc]; dsimp only; rw [if_neg hso, hts]
      dsimp only; rw [hadd]
    rw [heq] at h ⊢
    injection h with h2
    exact ⟨rfl, rfl, rfl, fun _ => rfl, fun hco => absurd (h2.trans hco) (by decide)⟩
  rcases Option.eq_none_or_eq_some
      (checked_add ((kvGet s.balances toA).getD 0) value)
    with hbal | ⟨new_balance, hbal⟩
  · have heq : deposit_to s sender toA value
        = ({ s with totalSupply := some new_total },
           .error (.genericErr "Account balance overflow")) := by
      unfold deposit_to; rw [if_neg hv, hc]; dsimp only; rw [if_neg hso, hts]
      dsimp only; rw [hadd]; dsimp only [balance]; rw [hbal]
    rw [heq] at h ⊢
    injection h with h2
    refine ⟨rfl, rfl, rfl, fun hne => absurd h2.symm hne, fun _ => ?_⟩
    refine ⟨ts, hts, hv, (checked_add_eq_some.mp hadd).1, ?_, ?_⟩
    · exact checked_add_eq_none.mp hbal
    · have hnt := (checked_add_eq_some.mp hadd).2
      simp [hnt]
  · have heq : deposit_to s sender toA value
        = (set_balance { s with totalSupply := some new_total } toA new_balance,
           .ok .depositTo) := by
      unfold deposit_to; rw [if_neg hv, hc]; dsimp only; rw [if_neg hso, hts]
      dsimp only; rw [hadd]; dsimp only [balance]; rw [hbal]
    rw [heq] at h
    exact absurd h (by simp)

/-- Witness for the amended C1 at the counterexample input. -/
theorem deposit_to_rejection_effects_witness :
    (deposit_to depositCounterState [0] [1] 1).1.balances
      = depositCounterState.balances ∧
    (deposit_to depositCounterState [0] [1] 1).1.allowances
      = depositCounterState.allowances ∧
    (deposit_to depositCounterState [0] [1] 1).1.constants
      = depositCounterState.constants ∧
    (StdErr.genericErr "Account balance overflow"
        ≠ .genericErr "Account balance overflow"
      → (deposit_to depositCounterState [0] [1] 1).1 = depositCounterState) ∧
    (StdErr.genericErr "Account balance overflow"
        = .genericErr "Account balance overflow"
      → ∃ ts, depositCounterState.totalSupply = some ts ∧ (1 : Nat) ≠ 0 ∧
          ts + 1 ≤ U128_MAX ∧
          U128_MAX < balance depositCounterState [1] + 1 ∧
          (deposit_to depositCounterState [0] [1] 1).1.totalSupply
            = some (ts + 1)) :=
  deposit_to_rejection_effects depositCounterState [0] [1] 1
    (.genericErr "Account balance overflow") rfl

/-- C2 as stated is false on the code: in burnCounterState, address 1
burns 3 of its 5 stored tokens while the stored total supply is 0; the
value does not exceed the balance but exceeds the total supply, the
operation is rejected with the total-supply-underflow error, yet the
returned state does not keep the old balance: the balance write had
already been persisted. -/
theorem burn_underflow_counterexample :
    3 ≤ balance burnCounterState [1] ∧
    burnCounterState.totalSupply = some 0 ∧
    (burn_from burnCounterState [1] [1] 3).2
      = .error (.genericErr "Total supply underflow") ∧
    balance (burn_from burnCounterState [1] [1] 3).1 [1]
      ≠ balance burnCounterState [1] := by
  refine ⟨by decide, rfl, rfl, by decide⟩

/-- C2 amended: a burn rejected for zero value, missing Constants, an
unauthorized sender or insufficient balance leaves the state unchanged,
and no rejection ever changes the stored TotalSupply; but a burn that
passes the balance check and is only then rejected, with Underflow
because the value exceeds the stored total supply or with the
missing-record error because TotalSupply is absent, has already
persisted the balance write: the source balance in the returned state
is the old balance minus the value. The Underflow case needs the value
to exceed the total supply but not the balance, which no reachable
state exhibits. -/
theorem burn_from_rejection_effects (s : ContractState) (sender fromA : Addr)
    (value : Nat) (e : StdErr)
    (h : (burn_from s sender fromA value).2 = .error e) :
    (burn_from s sender fromA value).1.allowances = s.allowances ∧
    (burn_from s sender fromA value).1.constants = s.constants ∧
    (burn_from s sender fromA value).1.totalSupply = s.totalSupply ∧
    (s.constants = none → (burn_from s sender fromA value).1 = s) ∧
    (e ≠ .genericErr "Total supply underflow"
        ∧ e ≠ .genericErr "no constants in storage"
      → (burn_from s sender fromA value).1 = s) ∧
    (e = .genericErr "no constants in storage" ∧ s.constants ≠ none
      → s.totalSupply = none ∧ value ≤ balance s fromA ∧
        balance (burn_from s sender fromA value).1 fromA
          = balance s fromA - value) ∧
    (e = .genericErr "Total supply underflow"
      → value ≤ balance s fromA ∧
        (∃ ts, s.totalSupply = some ts ∧ ts < value) ∧
        balance (burn_from s sender fromA value).1 fromA
          = balance s fromA - value) := by
  by_cases hv : value = 0
  · have heq : burn_from s sender fromA value
        = (s, .error (.genericErr "Can not burn zero tokens")) := by
      unfold burn_from; rw [if_pos hv]
    rw [heq] at h ⊢
    injection h with h2
    exact ⟨rfl, rfl, rfl, fun _ => rfl, fun _ => rfl,
      fun hco => absurd (h2.trans hco.1) (by decide),
      fun hco => absurd (h2.trans hco) (by decide)⟩
  rcases Option.eq_none_or_eq_some s.constants with hc | ⟨c, hc⟩
  · have heq : burn_from s sender fromA value
        = (s, .error (.genericErr "no constants in storage")) := by
      unfold burn_from; rw [if_neg hv, hc]
    rw [heq] at h ⊢
    injection h with h2
    refine ⟨rfl, rfl, rfl, fun _ => rfl, fun hne => absurd h2.symm hne.2,
      fun hco => absurd hc hco.2,
      fun hco => absurd (h2.trans hco) (by decide)⟩
  by_cases hauth : sender ≠ c.owner ∧ sender ≠ fromA
  · have heq : burn_from s sender fromA value
        = (s, .error
            (.genericErr "Only contract owner or account owner can burn tokens")) := by
      unfold burn_from; rw [if_neg hv, hc]; dsimp only; rw [if_pos hauth]
    rw [heq] at h ⊢
    injection h with h2
    exact ⟨rfl, rfl, rfl, fun _ => rfl, fun _ => rfl,
      fun hco => absurd (h2.trans hco.1) (by decide),
      fun hco => absurd (h2.trans hco) (by decide)⟩
  rcases Option.eq_none_or_eq_some (checked_sub (balance s fromA) value)
    with hsub | ⟨new_balance, hsub⟩
  · have heq : burn_from s sender fromA value
        = (s, .error (.genericErr "Account balance underflow")) := by
      unfold burn_from; rw [if_neg hv, hc]; dsimp only; rw [if_neg hauth, hsub]
    rw [heq] at h ⊢
    injection h with h2
    exact ⟨rfl, rfl, rfl, fun _ => rfl, fun _ => rfl,
      fun hco => absurd (h2.trans hco.1) (by decide),
      fun hco => absurd (h2.trans hco) (by decide)⟩
  rcases Option.eq_none_or_eq_some s.totalSupply with hts | ⟨ts, hts⟩
  · have hts2 : (set_balance s fromA new_balance).totalSupply = none := hts
    have heq : burn_from s sender fromA value
        = (set_balance s fromA new_balance,
           .error (.genericErr "no constants in storage")) := by
      unfold burn_from; rw [if_neg hv, hc]; dsimp only; rw [if_neg hauth, hsub]
      dsimp only; rw [hts2]
    rw [heq] at h ⊢
    injection h with h2
    obtain ⟨hle, hnb⟩ := checked_sub_eq_some.mp hsub
    refine ⟨rfl, rfl, rfl,
      fun hcn => absurd (hc.symm.trans hcn) (by simp),
      fun hne => absurd h2.symm hne.2,
      fun _ => ⟨hts, hle, ?_⟩,
      fun hco => absurd (h2.trans hco) (by decide)⟩
    simp only [balance, set_balance, kvGet_kvSet_self, Option.getD_some, hnb]
  have hts2 : (set_balance s fromA new_balance).totalSupply = some ts := hts
  rcases Option.eq_none_or_eq_some (checked_sub ts value)
    with hsub2 | ⟨new_total, hsub2⟩
  · have heq : burn_from s sender fromA value
        = (set_balance s fromA new_balance,
           .error (.genericErr "Total supply underflow")) := by
      unfold burn_from; rw [if_neg hv, hc]; dsimp only; rw [if_neg hauth, hsub]
      dsimp only; rw [hts2]; dsimp only; rw [hsub2]
    rw [heq] at h ⊢
    injection h with h2
    obtain ⟨hle, hnb⟩ := checked_sub_eq_some.mp hsub
    refine ⟨rfl, rfl, rfl,
      fun hcn => absurd (hc.symm.trans hcn) (by simp),
      fun hne => absurd h2.symm hne.1,
      fun hco => absurd (h2.trans hco.1) (by decide),
      fun _ => ⟨hle, ⟨ts, hts, checked_sub_eq_none.mp hsub2⟩, ?_⟩⟩
    simp only [balance, set_balance, kvGet_kvSet_self, Option.getD_some, hnb]
  · have heq : burn_from s sender fromA value
        = ({ set_balance s fromA new_balance with totalSupply := some new_total },
           .ok .burnFrom) := by
      unfold burn_from; rw [if_neg hv, hc]; dsimp only; rw [if_neg hauth, hsub]
      dsimp only; rw [hts2]; dsimp only; rw [hsub2]
    rw [heq] at h
    exact absurd h (by simp)

/-- Witness for the amended C2 at the counterexample input. -/
theorem burn_from_rejection_effects_witness :
    (burn_from burnCounterState [1] [1] 3).1.allowances
      = burnCounterState.allowances ∧
    (burn_from burnCounterState [1] [1] 3).1.constants
      = burnCounterState.constants ∧
    (burn_from burnCounterState [1] [1] 3).1.totalSupply
      = burnCounterState.totalSupply ∧
    (burnCounterState.constants = none
      → (burn_from burnCounterState [1] [1] 3).1 = burnCounterState) ∧
    (StdErr.genericErr "Total supply underflow"
        ≠ .genericErr "Total supply underflow"
      ∧ StdErr.genericErr "Total supply underflow"
        ≠ .genericErr "no constants in storage"
      → (burn_from burnCounterState [1] [1] 3).1 = burnCounterState) ∧
    (StdErr.genericErr "Total supply underflow"
        = .genericErr "no constants in storage"
      ∧ burnCounterState.constants ≠ none
      → burnCounterState.totalSupply = none ∧ 3 ≤ balance burnCounterState [1] ∧
        balance (burn_from burnCounterState [1] [1] 3).1 [1]
          = balance burnCounterState [1] - 3) ∧
    (StdErr.genericErr "Total supply underflow"
        = .genericErr "Total supply underflow"
      → 3 ≤ balance burnCounterState [1] ∧
        (∃ ts, burnCounterState.totalSupply = some ts ∧ ts < 3) ∧
        balance (burn_from burnCounterState [1] [1] 3).1 [1]
          = balance burnCounterState [1] - 3) :=
  burn_from_rejection_effects burnCounterState [1] [1] 3
    (.genericErr "Total supply underflow") rfl

end SecretContract
